import Mathlib

/-!
Verification of the vms-core thread-lifecycle framework
(`src/src/thread_base.cpp`, `src/include/vms/core/thread_worker.h`).

The C++ classes are shallowly embedded:

* `ThreadState` models the externally observable state of a `vms::core::Thread`
  object: the atomic `stop_flag_` and the `std::thread thread_` handle,
  represented as `Option ThreadId` — `some id` exactly when `thread_.joinable()`
  is true and the associated OS thread has id `id`; `none` when the handle is
  not joinable (default-constructed or moved-from).
* `Thread.start` / `Thread.stop` model the bodies of `Thread::start` and
  `Thread::stop`.  Thread creation may fail (the C++ `std::thread` constructor
  throws); this nondeterminism is an explicit `Option ThreadId` argument
  (`some id` = a thread with id `id` was spawned, `none` = creation threw).
  `start`'s result is `Except Unit Bool`: `.error ()` models the rethrown
  exception, `.ok b` the returned boolean.  `stop` returns whether a join was
  performed together with the new state.
* `Thread.loop` models `Thread::loop` as a trace generator over an abstract
  bundle of hooks (`ThreadHooks`), producing the list of hook invocations.
  The stop flag observed at the top of each iteration is abstracted as a
  Boolean stream `stopObs` (it can be written concurrently by `stop()` calls,
  including `stop(false)` from inside `run()`); `fuel` bounds the unrolling
  and `completed = true` records that the loop exited by observing the flag
  (rather than running out of fuel).
-/

namespace VmsCore

/-- OS thread identifiers (`std::thread::id`), abstracted as naturals. -/
abbrev ThreadId := Nat

/-- Observable state of a `vms::core::Thread` object: the `stop_flag_`
atomic and the `thread_` handle (`some id` iff `thread_.joinable()`). -/
structure ThreadState where
  stop_flag : Bool
  thread : Option ThreadId
  deriving Repr, DecidableEq

/-- `Thread::Thread()` : `stop_flag_(true)`, default (non-joinable) handle. -/
def Thread.mkState : ThreadState :=
  ⟨true, none⟩

/-- `Thread::start()`.  Under the state mutex: if the handle is joinable,
return `false` with no side effect.  Otherwise clear the stop flag and
construct the thread; if construction throws (`spawn = none`), restore the
stop flag to `true` and rethrow; on success the handle holds the new thread
and `true` is returned. -/
def Thread.start (s : ThreadState) (spawn : Option ThreadId) :
    Except Unit Bool × ThreadState :=
  if s.thread.isSome then
    (.ok false, s)
  else
    match spawn with
    | some id => (.ok true, ⟨false, some id⟩)
    | none => (.error (), ⟨true, s.thread⟩)

/-- `Thread::stop(wait_join)` called from thread `caller`.  Sets the stop
flag, then: no joinable handle → return; handle's id equals the caller's id →
never join; otherwise join exactly when `wait_join` is true, which moves the
handle out and joins it.  Returns `(joined, new state)` where `joined` records
whether the call blocked on `join()`. -/
def Thread.stop (s : ThreadState) (wait_join : Bool) (caller : ThreadId) :
    Bool × ThreadState :=
  match s.thread with
  | none => (false, ⟨true, s.thread⟩)
  | some id =>
    if id = caller then
      (false, ⟨true, s.thread⟩)
    else if wait_join then
      (true, ⟨true, none⟩)
    else
      (false, ⟨true, s.thread⟩)

/-- The hook invocations a `Thread::loop` run can perform. -/
inductive HookEvent where
  | initEv
  | preEv
  | runEv
  | postEv
  | uninitEv
  deriving Repr, DecidableEq

/-- The five virtual hooks of `vms::core::Thread`, acting on an abstract
per-worker state `σ` (`run` is pure virtual; `init`/`uninit`/`pre_run`/
`post_run` have identity defaults, see `Thread.initHook` etc.). -/
structure ThreadHooks (σ : Type) where
  init : σ → Bool × σ
  uninit : σ → σ
  pre_run : σ → σ
  run : σ → σ
  post_run : σ → σ

/-- Default `Thread::init()`: returns `true`, no state change. -/
def Thread.initHook {σ : Type} : σ → Bool × σ := fun s => (true, s)

/-- Default `Thread::uninit()`: no-op. -/
def Thread.uninitHook {σ : Type} : σ → σ := fun s => s

/-- Default `Thread::pre_run()`: no-op. -/
def Thread.preRunHook {σ : Type} : σ → σ := fun s => s

/-- Default `Thread::post_run()`: no-op. -/
def Thread.postRunHook {σ : Type} : σ → σ := fun s => s

/-- Result of a `Thread::loop` run: the trace of hook invocations, the final
worker state, the stop-flag value at thread exit, and whether the loop
actually exited (`completed = true`) as opposed to the fuel running out. -/
structure LoopResult (σ : Type) where
  events : List HookEvent
  state : σ
  stop_flag : Bool
  completed : Bool
  deriving Repr

/-- The `while (!stop_flag_) { pre_run(); run(); post_run(); } uninit();`
part of `Thread::loop`. `stopObs i` is the stop-flag value observed by the
check at the top of iteration `i`. -/
def Thread.loopFrom {σ : Type} (w : ThreadHooks σ) (stopObs : Nat → Bool) :
    Nat → Nat → σ → LoopResult σ
  | 0, _, s => ⟨[], s, false, false⟩
  | fuel + 1, i, s =>
    if stopObs i then
      ⟨[HookEvent.uninitEv], w.uninit s, true, true⟩
    else
      let r := Thread.loopFrom w stopObs fuel (i + 1)
        (w.post_run (w.run (w.pre_run s)))
      ⟨HookEvent.preEv :: HookEvent.runEv :: HookEvent.postEv :: r.events,
        r.state, r.stop_flag, r.completed⟩

/-- `Thread::loop()`: call `init()`; on failure store `true` to the stop flag
and return (no iteration, no `uninit`); otherwise run the while loop followed
by `uninit()`. -/
def Thread.loop {σ : Type} (w : ThreadHooks σ) (stopObs : Nat → Bool)
    (fuel : Nat) (s : σ) : LoopResult σ :=
  let r0 := w.init s
  if r0.1 then
    let r := Thread.loopFrom w stopObs fuel 0 r0.2
    ⟨HookEvent.initEv :: r.events, r.state, r.stop_flag, r.completed⟩
  else
    ⟨[HookEvent.initEv], r0.2, true, true⟩

/-- The event trace of `k` complete loop iterations. -/
def iterBlocks : Nat → List HookEvent
  | 0 => []
  | k + 1 => HookEvent.preEv :: HookEvent.runEv :: HookEvent.postEv ::
      iterBlocks k

theorem iterBlocks_count_preEv (k : Nat) :
    (iterBlocks k).count HookEvent.preEv = k := by
  induction k with
  | zero => rfl
  | succ n ih => simp [iterBlocks, List.count_cons, ih]

theorem iterBlocks_count_runEv (k : Nat) :
    (iterBlocks k).count HookEvent.runEv = k := by
  induction k with
  | zero => rfl
  | succ n ih => simp [iterBlocks, List.count_cons, ih]

theorem iterBlocks_count_postEv (k : Nat) :
    (iterBlocks k).count HookEvent.postEv = k := by
  induction k with
  | zero => rfl
  | succ n ih => simp [iterBlocks, List.count_cons, ih]

theorem iterBlocks_count_initEv (k : Nat) :
    (iterBlocks k).count HookEvent.initEv = 0 := by
  induction k with
  | zero => rfl
  | succ n ih => simp [iterBlocks, List.count_cons, ih]

theorem iterBlocks_count_uninitEv (k : Nat) :
    (iterBlocks k).count HookEvent.uninitEv = 0 := by
  induction k with
  | zero => rfl
  | succ n ih => simp [iterBlocks, List.count_cons, ih]

/-- A completed `loopFrom` run exits with the stop flag observed `true`, its
trace is some number of full `pre/run/post` blocks followed by exactly one
`uninit`, and its final state is `uninit` applied to some intermediate state. -/
theorem loopFrom_completed {σ : Type} (w : ThreadHooks σ) (stopObs : Nat → Bool)
    (fuel : Nat) :
    ∀ (i : Nat) (s : σ),
      (Thread.loopFrom w stopObs fuel i s).completed = true →
      (Thread.loopFrom w stopObs fuel i s).stop_flag = true ∧
      ∃ k s2,
        (Thread.loopFrom w stopObs fuel i s).events =
          iterBlocks k ++ [HookEvent.uninitEv] ∧
        (Thread.loopFrom w stopObs fuel i s).state = w.uninit s2 := by
  induction fuel with
  | zero =>
    intro i s h
    simp [Thread.loopFrom] at h
  | succ n ih =>
    intro i s h
    by_cases hstop : stopObs i = true
    · refine ⟨by simp [Thread.loopFrom, hstop], 0, s, ?_, ?_⟩
      · simp [Thread.loopFrom, hstop, iterBlocks]
      · simp [Thread.loopFrom, hstop]
    · have hstop' : stopObs i = false := by
        cases hx : stopObs i with
        | false => rfl
        | true => exact absurd hx hstop
      rw [Thread.loopFrom] at h
      simp only [hstop', if_false] at h
      obtain ⟨hflag, k, s2, hev, hst⟩ :=
        ih (i + 1) (w.post_run (w.run (w.pre_run s))) h
      refine ⟨?_, k + 1, s2, ?_, ?_⟩
      · rw [Thread.loopFrom]
        simpa [hstop'] using hflag
      · rw [Thread.loopFrom]
        simp only [hstop', if_false]
        simp [iterBlocks, hev]
      · rw [Thread.loopFrom]
        simpa [hstop'] using hst

/-! ## Claim theorems: start / stop -/

/-- C1 counterexample.  The claim says that after `stop(wait_join = false)`
from another thread, "no joinable thread handle remains associated with the
Worker object".  In the code the `wait_join = false` path neither joins nor
detaches: with the handle holding thread 1 and the call made from thread 0,
the handle is still associated (joinable) after the call. -/
theorem stop_no_wait_counterexample :
    (Thread.stop ⟨false, some 1⟩ false 0).2.thread ≠ none := by
  decide

/-- C1 (amended): `stop(wait_join = false)` called from a thread other than
the worker's own while a thread is associated sets the stop flag and returns
without joining (no blocking wait), and the thread handle remains associated
with the Worker object (still joinable); it is only reaped by a later
blocking `stop` or by the destructor. -/
theorem stop_no_wait_keeps_handle (s : ThreadState) (caller idw : ThreadId)
    (hth : s.thread = some idw) (hne : idw ≠ caller) :
    Thread.stop s false caller = (false, ⟨true, some idw⟩) := by
  simp [Thread.stop, hth, hne]

/-- C1 witness. -/
theorem stop_no_wait_keeps_handle_witness :
    Thread.stop ⟨false, some 1⟩ false 0 = (false, ⟨true, some 1⟩) :=
  stop_no_wait_keeps_handle ⟨false, some 1⟩ 0 1 rfl (by decide)

/-- C4: `start()` returns `false` with no side effect when a thread handle is
already joinable; otherwise (no joinable handle, creation succeeds) it clears
the stop flag, installs the newly spawned thread and returns `true`; and after
a full blocking `stop()` from another thread (which joins and clears the
handle), a subsequent `start()` succeeds again. -/
theorem start_stop_restart (t u v : ThreadState) (idw caller id1 id2 : ThreadId)
    (hbusy : t.thread.isSome = true) (hidle : u.thread = none)
    (hrun : v.thread = some idw) (hne : idw ≠ caller) :
    (∀ sp : Option ThreadId, Thread.start t sp = (.ok false, t)) ∧
    Thread.start u (some id1) = (.ok true, ⟨false, some id1⟩) ∧
    Thread.start (Thread.stop v true caller).2 (some id2) =
      (.ok true, ⟨false, some id2⟩) := by
  refine ⟨fun sp => by simp [Thread.start, hbusy], ?_, ?_⟩
  · simp [Thread.start, hidle]
  · simp [Thread.stop, hrun, hne, Thread.start]

/-- C4 witness. -/
theorem start_stop_restart_witness :
    (∀ sp : Option ThreadId,
      Thread.start ⟨false, some 3⟩ sp = (.ok false, ⟨false, some 3⟩)) ∧
    Thread.start ⟨true, none⟩ (some 7) = (.ok true, ⟨false, some 7⟩) ∧
    Thread.start (Thread.stop ⟨false, some 3⟩ true 0).2 (some 7) =
      (.ok true, ⟨false, some 7⟩) :=
  start_stop_restart ⟨false, some 3⟩ ⟨true, none⟩ ⟨false, some 3⟩ 3 0 7 7
    rfl rfl rfl (by decide)

/-- C6: when thread creation fails (`spawn = none`) in `start()` on a worker
with no associated thread, the stop flag is restored to the set (stopped)
state, the failure propagates out of `start` as an error (not swallowed), and
the worker is left in its pre-start state (unchanged whenever its stop flag
was already set, as it is in every reachable idle state). -/
theorem start_spawn_failure (s : ThreadState) (hidle : s.thread = none) :
    Thread.start s none = (.error (), ⟨true, s.thread⟩) ∧
    (s.stop_flag = true → (Thread.start s none).2 = s) := by
  constructor
  · simp [Thread.start, hidle]
  · intro hflag
    obtain ⟨f, th⟩ := s
    simp only at hidle hflag
    subst hidle hflag
    simp [Thread.start]

/-- C6 witness. -/
theorem start_spawn_failure_witness :
    Thread.start ⟨true, none⟩ none = (.error (), ⟨true, none⟩) ∧
    ((true : Bool) = true → (Thread.start ⟨true, none⟩ none).2 = ⟨true, none⟩) := by
  have h := start_spawn_failure ⟨true, none⟩ rfl
  exact ⟨h.1, fun _ => h.2 rfl⟩

/-- C8: a `stop` call issued from the worker's own thread (the handle's id
equals the caller's id) sets the stop flag but never joins, for either value
of `wait_join`; the handle itself is left in place (about to terminate on its
own). -/
theorem stop_from_own_thread (s : ThreadState) (idw : ThreadId) (wj : Bool)
    (hth : s.thread = some idw) :
    Thread.stop s wj idw = (false, ⟨true, s.thread⟩) := by
  simp [Thread.stop, hth]

/-- C8 witness. -/
theorem stop_from_own_thread_witness :
    Thread.stop ⟨false, some 5⟩ true 5 = (false, ⟨true, some 5⟩) ∧
    Thread.stop ⟨false, some 5⟩ false 5 = (false, ⟨true, some 5⟩) :=
  ⟨stop_from_own_thread ⟨false, some 5⟩ 5 true rfl,
   stop_from_own_thread ⟨false, some 5⟩ 5 false rfl⟩

/-! ## Claim theorems: the loop -/

/-- C2: when `init()` returns failure, the loop performs no iteration —
`pre_run`, `run`, `post_run` and `uninit` are never invoked — the stop flag
is stored `true` by the thread itself, and the thread exits cleanly
(`completed`); moreover this is invisible to `start()`'s return value, which
is already `.ok true` for any successfully spawned worker, independent of its
hooks. -/
theorem init_failure_aborts_run {σ : Type} (w : ThreadHooks σ)
    (stopObs : Nat → Bool) (fuel : Nat) (s : σ)
    (hfail : (w.init s).1 = false) :
    Thread.loop w stopObs fuel s = ⟨[HookEvent.initEv], (w.init s).2, true, true⟩ ∧
    (Thread.loop w stopObs fuel s).events.count HookEvent.runEv = 0 ∧
    (Thread.loop w stopObs fuel s).events.count HookEvent.preEv = 0 ∧
    (Thread.loop w stopObs fuel s).events.count HookEvent.postEv = 0 ∧
    (Thread.loop w stopObs fuel s).events.count HookEvent.uninitEv = 0 ∧
    (∀ (t : ThreadState) (id : ThreadId), t.thread = none →
      Thread.start t (some id) = (.ok true, ⟨false, some id⟩)) := by
  have hmain : Thread.loop w stopObs fuel s =
      ⟨[HookEvent.initEv], (w.init s).2, true, true⟩ := by
    unfold Thread.loop
    simp [hfail]
  refine ⟨hmain, ?_, ?_, ?_, ?_, ?_⟩
  · rw [hmain]; rfl
  · rw [hmain]; rfl
  · rw [hmain]; rfl
  · rw [hmain]; rfl
  · intro t id ht
    simp [Thread.start, ht]

/-- C2 witness, with a concrete worker whose `init` fails. -/
theorem init_failure_aborts_run_witness :
    Thread.loop
        (⟨fun u => (false, u), fun u => u, fun u => u, fun u => u, fun u => u⟩ :
          ThreadHooks Unit)
        (fun _ => false) 5 () =
      ⟨[HookEvent.initEv], (), true, true⟩ :=
  (init_failure_aborts_run
    (⟨fun u => (false, u), fun u => u, fun u => u, fun u => u, fun u => u⟩ :
      ThreadHooks Unit)
    (fun _ => false) 5 () rfl).1

/-- C5: in any run in which `init()` succeeds and the loop later exits, the
trace is exactly `init`, then some number `k` of strictly ordered
`pre_run → run → post_run` blocks, then `uninit`; hence the `pre_run` and
`post_run` counts are both `k` (equal), `init` occurs exactly once (before
the first `pre_run`) and `uninit` exactly once (after the last `post_run`). -/
theorem loop_hook_discipline {σ : Type} (w : ThreadHooks σ)
    (stopObs : Nat → Bool) (fuel : Nat) (s : σ)
    (hinit : (w.init s).1 = true)
    (hdone : (Thread.loop w stopObs fuel s).completed = true) :
    ∃ k,
      (Thread.loop w stopObs fuel s).events =
        HookEvent.initEv :: (iterBlocks k ++ [HookEvent.uninitEv]) ∧
      (Thread.loop w stopObs fuel s).events.count HookEvent.preEv = k ∧
      (Thread.loop w stopObs fuel s).events.count HookEvent.postEv = k ∧
      (Thread.loop w stopObs fuel s).events.count HookEvent.runEv = k ∧
      (Thread.loop w stopObs fuel s).events.count HookEvent.initEv = 1 ∧
      (Thread.loop w stopObs fuel s).events.count HookEvent.uninitEv = 1 := by
  have hloop : Thread.loop w stopObs fuel s =
      ⟨HookEvent.initEv :: (Thread.loopFrom w stopObs fuel 0 (w.init s).2).events,
        (Thread.loopFrom w stopObs fuel 0 (w.init s).2).state,
        (Thread.loopFrom w stopObs fuel 0 (w.init s).2).stop_flag,
        (Thread.loopFrom w stopObs fuel 0 (w.init s).2).completed⟩ := by
    unfold Thread.loop
    simp [hinit]
  have hdone2 : (Thread.loopFrom w stopObs fuel 0 (w.init s).2).completed = true := by
    rw [hloop] at hdone
    exact hdone
  obtain ⟨-, k, s2, hev, -⟩ := loopFrom_completed w stopObs fuel 0 (w.init s).2 hdone2
  refine ⟨k, ?_, ?_, ?_, ?_, ?_, ?_⟩ <;>
    rw [hloop] <;>
    simp [hev, List.count_cons, List.count_append, iterBlocks_count_preEv,
      iterBlocks_count_postEv, iterBlocks_count_runEv, iterBlocks_count_initEv,
      iterBlocks_count_uninitEv]

/-- C5 witness: a trivial worker stopped at the second flag check performs
exactly one full iteration between `init` and `uninit`. -/
theorem loop_hook_discipline_witness :
    ∃ k,
      (Thread.loop
          (⟨fun u => (true, u), fun u => u, fun u => u, fun u => u, fun u => u⟩ :
            ThreadHooks Unit)
          (fun i => decide (1 ≤ i)) 3 ()).events =
        HookEvent.initEv :: (iterBlocks k ++ [HookEvent.uninitEv]) ∧
      (Thread.loop
          (⟨fun u => (true, u), fun u => u, fun u => u, fun u => u, fun u => u⟩ :
            ThreadHooks Unit)
          (fun i => decide (1 ≤ i)) 3 ()).events.count HookEvent.preEv = k ∧
      (Thread.loop
          (⟨fun u => (true, u), fun u => u, fun u => u, fun u => u, fun u => u⟩ :
            ThreadHooks Unit)
          (fun i => decide (1 ≤ i)) 3 ()).events.count HookEvent.postEv = k ∧
      (Thread.loop
          (⟨fun u => (true, u), fun u => u, fun u => u, fun u => u, fun u => u⟩ :
            ThreadHooks Unit)
          (fun i => decide (1 ≤ i)) 3 ()).events.count HookEvent.runEv = k ∧
      (Thread.loop
          (⟨fun u => (true, u), fun u => u, fun u => u, fun u => u, fun u => u⟩ :
            ThreadHooks Unit)
          (fun i => decide (1 ≤ i)) 3 ()).events.count HookEvent.initEv = 1 ∧
      (Thread.loop
          (⟨fun u => (true, u), fun u => u, fun u => u, fun u => u, fun u => u⟩ :
            ThreadHooks Unit)
          (fun i => decide (1 ≤ i)) 3 ()).events.count HookEvent.uninitEv = 1 :=
  loop_hook_discipline
    (⟨fun u => (true, u), fun u => u, fun u => u, fun u => u, fun u => u⟩ :
      ThreadHooks Unit)
    (fun i => decide (1 ≤ i)) 3 () rfl (by decide)

/-!
## The timing workers (`src/src/thread_base.cpp`, second translation unit)

Time is modelled as `Int` microseconds: a `std::chrono::microseconds`
duration is its count, a `Clock::time_point` its offset from the epoch
(`Clock::time_point{}` is `0`).  Sleeping is modelled as a returned
action: `TimedThread.pre_run` yields `some d` for `sleep_for(d)`,
`HiResTimedThread.post_run` yields `some t` for `sleep_until(t)`, `none`
for no sleep.
-/

/-- `make_non_negative_duration` (anonymous namespace): clamp a negative
microsecond count to zero. -/
def make_non_negative_duration (microseconds : Int) : Int :=
  if microseconds < 0 then 0 else microseconds

/-- State of a `vms::core::TimedThread`: the `sleep_duration_` field. -/
structure TimedState where
  sleep_duration : Int
  deriving Repr, DecidableEq

/-- `TimedThread::TimedThread(int32_t micro_sec)`:
`sleep_duration_(make_non_negative_duration(micro_sec))`. -/
def TimedThread.mkState (micro_sec : Int) : TimedState :=
  ⟨make_non_negative_duration micro_sec⟩

/-- `TimedThread::pre_run()`: `sleep_for(sleep_duration_)` iff the stored
duration is `> 0`; the state is untouched.  Returns the sleep action. -/
def TimedThread.pre_run (s : TimedState) : Option Int :=
  if 0 < s.sleep_duration then some s.sleep_duration else none

/-- `TimedThread` inherits `Thread::init` unchanged (no override). -/
def TimedThread.init : TimedState → Bool × TimedState := Thread.initHook

/-- `TimedThread` inherits `Thread::uninit` unchanged (no override). -/
def TimedThread.uninit : TimedState → TimedState := Thread.uninitHook

/-- `TimedThread` inherits `Thread::post_run` unchanged (no override). -/
def TimedThread.post_run : TimedState → TimedState := Thread.postRunHook

/-- State of a `vms::core::HiResTimedThread`: `loop_interval_`,
`next_deadline_` (a `Clock::time_point`; the default-constructed "unset"
value is `0`) and `first_iteration_`. -/
structure HiResState where
  loop_interval : Int
  next_deadline : Int
  first_iteration : Bool
  deriving Repr, DecidableEq

/-- `HiResTimedThread::HiResTimedThread(int32_t micro_sec)`:
clamped interval, value-initialised deadline, `first_iteration_(true)`. -/
def HiResTimedThread.mkState (micro_sec : Int) : HiResState :=
  ⟨make_non_negative_duration micro_sec, 0, true⟩

/-- `HiResTimedThread::pre_run()` at current time `now`: no-op when the
interval is zero; on the first iteration arm `next_deadline_ = now +
loop_interval_` and clear the flag; otherwise no-op. -/
def HiResTimedThread.pre_run (s : HiResState) (now : Int) : HiResState :=
  if s.loop_interval = 0 then
    s
  else if s.first_iteration then
    ⟨s.loop_interval, now + s.loop_interval, false⟩
  else
    s

/-- `HiResTimedThread::post_run()` at current time `now`: no-op when the
interval is zero; if `now < next_deadline_`, `sleep_until(next_deadline_)`
then advance the deadline additively; otherwise no sleep and reset the
deadline to `now + loop_interval_`.  Returns the sleep action and the new
state. -/
def HiResTimedThread.post_run (s : HiResState) (now : Int) :
    Option Int × HiResState :=
  if s.loop_interval = 0 then
    (none, s)
  else if now < s.next_deadline then
    (some s.next_deadline,
      ⟨s.loop_interval, s.next_deadline + s.loop_interval, s.first_iteration⟩)
  else
    (none, ⟨s.loop_interval, now + s.loop_interval, s.first_iteration⟩)

/-- `HiResTimedThread::uninit()`: reset `first_iteration_` to `true` and the
deadline to the value-initialised time point, then call `Thread::uninit()`
(which is a no-op on the timing state). -/
def HiResTimedThread.uninit (s : HiResState) : HiResState :=
  Thread.uninitHook ⟨s.loop_interval, 0, true⟩

/-! ## Claim theorems: pacing arithmetic -/

/-- C3: with a positive period, every `post_run` at current time `now`
either (`now` before the stored deadline `d`) sleeps until exactly `d` and
advances the deadline additively to `d + P`, or (`now` at or past `d`)
does not sleep and resets the deadline to `now + P`. -/
theorem hires_post_run_pacing (s : HiResState) (now : Int)
    (hpos : 0 < s.loop_interval) :
    (now < s.next_deadline →
      HiResTimedThread.post_run s now =
        (some s.next_deadline,
          ⟨s.loop_interval, s.next_deadline + s.loop_interval,
            s.first_iteration⟩)) ∧
    (s.next_deadline ≤ now →
      HiResTimedThread.post_run s now =
        (none, ⟨s.loop_interval, now + s.loop_interval, s.first_iteration⟩)) := by
  have hne : s.loop_interval ≠ 0 := by omega
  constructor
  · intro hlt
    simp [HiResTimedThread.post_run, hne, hlt]
  · intro hge
    have hnlt : ¬ now < s.next_deadline := by omega
    simp [HiResTimedThread.post_run, hne, hnlt]

/-- C3 witness: period 10, deadline 100; an early finish at 96 sleeps until
100 and advances to 110, an overrun at 103 does not sleep and resets to 113. -/
theorem hires_post_run_pacing_witness :
    HiResTimedThread.post_run ⟨10, 100, false⟩ 96 = (some 100, ⟨10, 110, false⟩) ∧
    HiResTimedThread.post_run ⟨10, 100, false⟩ 103 = (none, ⟨10, 113, false⟩) :=
  ⟨((hires_post_run_pacing ⟨10, 100, false⟩ 96 (by decide)).1 (by decide)),
   ((hires_post_run_pacing ⟨10, 100, false⟩ 103 (by decide)).2 (by decide))⟩

/-- C7: with a positive period, `uninit` resets the first-iteration flag to
`true` and clears the deadline to the unset value (deferring to the base
hook, a no-op); the first `pre_run` of a run (flag set) arms
`next_deadline = now + P` and clears the flag; every later `pre_run` (flag
clear) changes nothing — so a restarted worker arms a fresh deadline. -/
theorem hires_pre_run_uninit_rearm (s : HiResState) (now : Int)
    (hpos : 0 < s.loop_interval) :
    HiResTimedThread.uninit s = ⟨s.loop_interval, 0, true⟩ ∧
    (s.first_iteration = true →
      HiResTimedThread.pre_run s now =
        ⟨s.loop_interval, now + s.loop_interval, false⟩) ∧
    (s.first_iteration = false → HiResTimedThread.pre_run s now = s) := by
  have hne : s.loop_interval ≠ 0 := by omega
  refine ⟨rfl, ?_, ?_⟩
  · intro hfirst
    simp [HiResTimedThread.pre_run, hne, hfirst]
  · intro hlater
    simp [HiResTimedThread.pre_run, hne, hlater]

/-- C7 witness. -/
theorem hires_pre_run_uninit_rearm_witness :
    HiResTimedThread.uninit ⟨10, 100, false⟩ = ⟨10, 0, true⟩ ∧
    HiResTimedThread.pre_run ⟨10, 0, true⟩ 42 = ⟨10, 52, false⟩ ∧
    HiResTimedThread.pre_run ⟨10, 100, false⟩ 42 = ⟨10, 100, false⟩ :=
  ⟨(hires_pre_run_uninit_rearm ⟨10, 100, false⟩ 42 (by decide)).1,
   (hires_pre_run_uninit_rearm ⟨10, 0, true⟩ 42 (by decide)).2.1 rfl,
   (hires_pre_run_uninit_rearm ⟨10, 100, false⟩ 42 (by decide)).2.2 rfl⟩

/-- C9: over the signed 32-bit constructor range, a negative `TimedThread`
delay is clamped to zero; `TimedThread.pre_run` sleeps for the stored
duration exactly when it is `> 0` and overrides no other hook (`init`,
`uninit`, `post_run` are the base defaults); and a `HiResTimedThread` with
non-positive period has interval `0`, for which both `pre_run` and
`post_run` are no-ops. -/
theorem timing_construction_clamps (d p : Int)
    (hd32 : -(2 ^ 31) ≤ d ∧ d < 2 ^ 31) (hdneg : d < 0)
    (hp32 : -(2 ^ 31) ≤ p ∧ p < 2 ^ 31) (hpnp : p ≤ 0) :
    (TimedThread.mkState d).sleep_duration = 0 ∧
    (∀ s : TimedState, 0 < s.sleep_duration →
      TimedThread.pre_run s = some s.sleep_duration) ∧
    (∀ s : TimedState, s.sleep_duration ≤ 0 → TimedThread.pre_run s = none) ∧
    TimedThread.init = (Thread.initHook : TimedState → Bool × TimedState) ∧
    TimedThread.uninit = (Thread.uninitHook : TimedState → TimedState) ∧
    TimedThread.post_run = (Thread.postRunHook : TimedState → TimedState) ∧
    (HiResTimedThread.mkState p).loop_interval = 0 ∧
    (∀ (s : HiResState) (now : Int), s.loop_interval = 0 →
      HiResTimedThread.pre_run s now = s ∧
      HiResTimedThread.post_run s now = (none, s)) := by
  refine ⟨?_, ?_, ?_, rfl, rfl, rfl, ?_, ?_⟩
  · simp [TimedThread.mkState, make_non_negative_duration, hdneg]
  · intro s hs
    simp [TimedThread.pre_run, hs]
  · intro s hs
    have hns : ¬ 0 < s.sleep_duration := by omega
    simp [TimedThread.pre_run, hns]
  · rcases lt_or_eq_of_le hpnp with hlt | heq
    · simp [HiResTimedThread.mkState, make_non_negative_duration, hlt]
    · simp [HiResTimedThread.mkState, make_non_negative_duration, ← heq]
  · intro s now hz
    exact ⟨by simp [HiResTimedThread.pre_run, hz],
      by simp [HiResTimedThread.post_run, hz]⟩

/-- C9 witness at delay `-5` and period `-3`. -/
theorem timing_construction_clamps_witness :
    (TimedThread.mkState (-5)).sleep_duration = 0 ∧
    TimedThread.pre_run ⟨7⟩ = some 7 ∧
    TimedThread.pre_run ⟨0⟩ = none ∧
    (HiResTimedThread.mkState (-3)).loop_interval = 0 ∧
    HiResTimedThread.pre_run ⟨0, 9, true⟩ 4 = ⟨0, 9, true⟩ ∧
    HiResTimedThread.post_run ⟨0, 9, true⟩ 4 = (none, ⟨0, 9, true⟩) := by
  have h := timing_construction_clamps (-5) (-3)
    ⟨by norm_num, by norm_num⟩ (by norm_num)
    ⟨by norm_num, by norm_num⟩ (by norm_num)
  exact ⟨h.1, h.2.1 ⟨7⟩ (by norm_num), h.2.2.1 ⟨0⟩ (by norm_num),
    h.2.2.2.2.2.2.1,
    (h.2.2.2.2.2.2.2 ⟨0, 9, true⟩ 4 rfl).1,
    (h.2.2.2.2.2.2.2 ⟨0, 9, true⟩ 4 rfl).2⟩

/-!
## `HiResTimedThread` as a worker in the loop (for the loop-entry invariant)

A concrete `HiResTimedThread` subclass supplies `run` (pure virtual) and may
override `init`; the timing fields are private to `HiResTimedThread`, so the
subclass parts (`initF`, `runF`) act only on their own state `τ`.  The clock
is a stream `times : Nat → Int`; each hook that may read `Clock::now()`
consumes the next stream element.
-/

/-- The hook bundle of a `HiResTimedThread` whose concrete subclass
contributes `initF` and `runF` over its own state `τ`.  The combined state
is `(timing state, clock index, subclass state)`. -/
def HiResTimedThread.hooks {τ : Type} (times : Nat → Int)
    (initF : τ → Bool × τ) (runF : τ → τ) :
    ThreadHooks (HiResState × Nat × τ) where
  init := fun s => ((initF s.2.2).1, (s.1, s.2.1, (initF s.2.2).2))
  uninit := fun s => (HiResTimedThread.uninit s.1, s.2)
  pre_run := fun s =>
    (HiResTimedThread.pre_run s.1 (times s.2.1), s.2.1 + 1, s.2.2)
  run := fun s => (s.1, s.2.1, runF s.2.2)
  post_run := fun s =>
    ((HiResTimedThread.post_run s.1 (times s.2.1)).2, s.2.1 + 1, s.2.2)

/-- The timing state a `HiResTimedThread` must present at every loop entry:
first-iteration flag set, deadline at the value-initialised (unset) value. -/
def HiResReady (s : HiResState) : Prop :=
  s.first_iteration = true ∧ s.next_deadline = 0

instance (s : HiResState) : Decidable (HiResReady s) := by
  unfold HiResReady
  infer_instance

/-- C10: the loop-entry invariant of the precision-paced worker.  The
constructor establishes `HiResReady` (flag `true`, deadline unset); `uninit`
re-establishes it from any state, so every completed run (which ends in
`uninit`) leaves the timing state ready for the next `start`; and a run
whose `init` fails performs no iteration and leaves the timing state exactly
as it was. -/
theorem hires_loop_entry_invariant {τ : Type} (times : Nat → Int)
    (initF : τ → Bool × τ) (runF : τ → τ) (stopObs : Nat → Bool) (fuel : Nat)
    (p : Int) (h0 : HiResState) (n0 : Nat) (t0 : τ)
    (hdone :
      (Thread.loop (HiResTimedThread.hooks times initF runF) stopObs fuel
        (h0, n0, t0)).completed = true) :
    HiResReady (HiResTimedThread.mkState p) ∧
    (∀ s : HiResState, HiResReady (HiResTimedThread.uninit s)) ∧
    ((initF t0).1 = true →
      HiResReady
        (Thread.loop (HiResTimedThread.hooks times initF runF) stopObs fuel
          (h0, n0, t0)).state.1) ∧
    ((initF t0).1 = false →
      (Thread.loop (HiResTimedThread.hooks times initF runF) stopObs fuel
          (h0, n0, t0)).state.1 = h0 ∧
      (Thread.loop (HiResTimedThread.hooks times initF runF) stopObs fuel
          (h0, n0, t0)).events = [HookEvent.initEv]) := by
  refine ⟨⟨rfl, rfl⟩, fun s => ⟨rfl, rfl⟩, ?_, ?_⟩
  · intro hok
    have hinit :
        ((HiResTimedThread.hooks times initF runF).init (h0, n0, t0)).1 = true := by
      simp [HiResTimedThread.hooks, hok]
    have hloop :
        Thread.loop (HiResTimedThread.hooks times initF runF) stopObs fuel
            (h0, n0, t0) =
          ⟨HookEvent.initEv ::
              (Thread.loopFrom (HiResTimedThread.hooks times initF runF) stopObs
                fuel 0
                ((HiResTimedThread.hooks times initF runF).init (h0, n0, t0)).2).events,
            (Thread.loopFrom (HiResTimedThread.hooks times initF runF) stopObs
              fuel 0
              ((HiResTimedThread.hooks times initF runF).init (h0, n0, t0)).2).state,
            (Thread.loopFrom (HiResTimedThread.hooks times initF runF) stopObs
              fuel 0
              ((HiResTimedThread.hooks times initF runF).init (h0, n0, t0)).2).stop_flag,
            (Thread.loopFrom (HiResTimedThread.hooks times initF runF) stopObs
              fuel 0
              ((HiResTimedThread.hooks times initF runF).init (h0, n0, t0)).2).completed⟩ := by
      unfold Thread.loop
      simp [hinit]
    have hdone2 :
        (Thread.loopFrom (HiResTimedThread.hooks times initF runF) stopObs fuel 0
          ((HiResTimedThread.hooks times initF runF).init (h0, n0, t0)).2).completed =
          true := by
      rw [hloop] at hdone
      exact hdone
    obtain ⟨-, k, s2, -, hst⟩ :=
      loopFrom_completed (HiResTimedThread.hooks times initF runF) stopObs fuel 0
        ((HiResTimedThread.hooks times initF runF).init (h0, n0, t0)).2 hdone2
    rw [hloop]
    simp only [hst]
    exact ⟨rfl, rfl⟩
  · intro hfail
    have hinit :
        ((HiResTimedThread.hooks times initF runF).init (h0, n0, t0)).1 = false := by
      simp [HiResTimedThread.hooks, hfail]
    have hloop :
        Thread.loop (HiResTimedThread.hooks times initF runF) stopObs fuel
            (h0, n0, t0) =
          ⟨[HookEvent.initEv],
            ((HiResTimedThread.hooks times initF runF).init (h0, n0, t0)).2,
            true, true⟩ := by
      unfold Thread.loop
      simp [hinit]
    rw [hloop]
    exact ⟨rfl, rfl⟩

/-- C10 witness: a subclass over `τ = Bool` whose `init` succeeds, stopped at
the second flag check; the final timing state is ready again. -/
theorem hires_loop_entry_invariant_witness :
    HiResReady (HiResTimedThread.mkState 10) ∧
    HiResReady (HiResTimedThread.uninit ⟨10, 99, false⟩) ∧
    HiResReady
      (Thread.loop
        (HiResTimedThread.hooks (fun i => (i : Int) * 7)
          (fun (t : Bool) => (true, t)) (fun t => t))
        (fun i => decide (1 ≤ i)) 3
        (HiResTimedThread.mkState 10, 0, false)).state.1 :=
  have h := hires_loop_entry_invariant (fun i => (i : Int) * 7)
    (fun (t : Bool) => (true, t)) (fun t => t) (fun i => decide (1 ≤ i)) 3 10
    (HiResTimedThread.mkState 10) 0 false (by decide)
  ⟨h.1, h.2.1 ⟨10, 99, false⟩, h.2.2.1 rfl⟩
